import Mathlib

/-!
Verification development for the RFQ draft-order proxy server (server.js).

The server receives Shopify App Proxy requests, verifies an HMAC-SHA256
signature over a canonical message rebuilt from the raw request path and the
raw query string, and then relays the submission to the admin API as a draft
order.  JavaScript strings are embedded as lists of characters and byte
buffers as lists of natural numbers below 256; every function below is a
direct transcription of the corresponding block of server.js (the deploy-ready
second variant, the one the specification describes), except for the
definitions whose doc comment says they transcribe a sentence of the
specification, used to compare spec and code.
-/

namespace Rfq

/-- One JavaScript string, embedded as its list of characters. -/
abbrev Str := List Char

/-- Transcribes the JavaScript idiom rawQuery.split on the ampersand:
splitting an empty string yields one empty fragment, and separators at the
ends yield empty fragments. -/
def splitAmp : Str → List Str
  | [] => [[]]
  | c :: rest =>
    if c = '&' then [] :: splitAmp rest
    else
      match splitAmp rest with
      | f :: fs => (c :: f) :: fs
      | [] => [[c]]

/-- Joining fragments with an ampersand, the JavaScript join idiom. -/
def joinAmp : List Str → Str
  | [] => []
  | [f] => f
  | f :: g :: t => f ++ '&' :: joinAmp (g :: t)

/-- Split a fragment at its first equals sign into key and value; a fragment
with no equals sign is all key with an empty value, transcribing the indexOf
and slice pair used in server.js. -/
def splitFirstEq : Str → Str × Str
  | [] => ([], [])
  | c :: rest =>
    if c = '=' then ([], rest)
    else ((splitFirstEq rest).fst.cons c, (splitFirstEq rest).snd)

/-- Split an original URL at its first question mark into raw path and raw
query, transcribing lines 411-413 of server.js; a URL with no question mark
has an empty raw query. -/
def splitFirstQmark : Str → Str × Str
  | [] => ([], [])
  | c :: rest =>
    if c = '?' then ([], rest)
    else ((splitFirstQmark rest).fst.cons c, (splitFirstQmark rest).snd)

/-- Value of one hexadecimal digit, in either case. -/
def hexVal (c : Char) : Option Nat :=
  if '0' ≤ c ∧ c ≤ '9' then some (c.toNat - 48)
  else if 'A' ≤ c ∧ c ≤ 'F' then some (c.toNat - 55)
  else if 'a' ≤ c ∧ c ≤ 'f' then some (c.toNat - 87)
  else none

/-- Intermediate token of percent decoding: either a character kept verbatim
or one byte produced by a percent escape. -/
inductive PctTok where
  | raw (c : Char)
  | byte (b : Nat)
deriving DecidableEq

/-- First phase of decodeURIComponent: turn every percent escape into a byte
token, fail on a malformed escape. -/
def pctToks : Str → Option (List PctTok)
  | [] => some []
  | '%' :: h1 :: h2 :: rest =>
    match hexVal h1, hexVal h2 with
    | some a, some b =>
      match pctToks rest with
      | some ts => some (PctTok.byte (16 * a + b) :: ts)
      | none => none
    | _, _ => none
  | '%' :: _ => none
  | c :: rest =>
    match pctToks rest with
    | some ts => some (PctTok.raw c :: ts)
    | none => none

/-- State of the incremental UTF-8 decoder: either between code points, or
inside a multi-byte sequence with a count of missing continuation bytes, the
accumulated bits, and the admissible range of the next byte (the boundaries of
the WHATWG decoder, which reject overlong forms and surrogates). -/
inductive Utf8State where
  | ground
  | pending (remaining acc lo hi : Nat)
deriving DecidableEq

/-- Second phase of decodeURIComponent: assemble byte tokens into code points
with the strict UTF-8 boundaries; a verbatim character inside a multi-byte
sequence, a stray continuation byte, or a truncated sequence fails. -/
def utf8Run : Utf8State → List PctTok → Option Str
  | Utf8State.ground, [] => some []
  | Utf8State.pending _ _ _ _, [] => none
  | Utf8State.ground, PctTok.raw c :: rest =>
    match utf8Run Utf8State.ground rest with
    | some out => some (c :: out)
    | none => none
  | Utf8State.ground, PctTok.byte b :: rest =>
    if b < 128 then
      match utf8Run Utf8State.ground rest with
      | some out => some (Char.ofNat b :: out)
      | none => none
    else if 194 ≤ b ∧ b ≤ 223 then
      utf8Run (Utf8State.pending 1 (b - 192) 128 191) rest
    else if 224 ≤ b ∧ b ≤ 239 then
      utf8Run (Utf8State.pending 2 (b - 224)
        (if b = 224 then 160 else 128) (if b = 237 then 159 else 191)) rest
    else if 240 ≤ b ∧ b ≤ 244 then
      utf8Run (Utf8State.pending 3 (b - 240)
        (if b = 240 then 144 else 128) (if b = 244 then 143 else 191)) rest
    else none
  | Utf8State.pending _ _ _ _, PctTok.raw _ :: _ => none
  | Utf8State.pending remaining acc lo hi, PctTok.byte b :: rest =>
    if lo ≤ b ∧ b ≤ hi then
      match remaining with
      | 1 =>
        match utf8Run Utf8State.ground rest with
        | some out => some (Char.ofNat (acc * 64 + (b - 128)) :: out)
        | none => none
      | n + 2 => utf8Run (Utf8State.pending (n + 1) (acc * 64 + (b - 128)) 128 191) rest
      | 0 => none
    else none

/-- The decodeURIComponent builtin: percent-decode, then strict UTF-8
assembly; the none result models the thrown URIError. -/
def decodeURIComponent (s : Str) : Option Str :=
  match pctToks s with
  | some ts => utf8Run Utf8State.ground ts
  | none => none

/-! SHA-256 and HMAC, the Node crypto primitives used by the verifier, over
lists of byte values (natural numbers below 256). -/

/-- Truncation to a 32-bit word. -/
def w32 (n : Nat) : Nat := n % 4294967296

/-- Right rotation of a 32-bit word by k bits. -/
def rotr32 (k x : Nat) : Nat := w32 ((x >>> k) ||| (x <<< (32 - k)))

/-- The big sigma-0 function of FIPS 180-4. -/
def bsig0 (x : Nat) : Nat := rotr32 2 x ^^^ rotr32 13 x ^^^ rotr32 22 x

/-- The big sigma-1 function of FIPS 180-4. -/
def bsig1 (x : Nat) : Nat := rotr32 6 x ^^^ rotr32 11 x ^^^ rotr32 25 x

/-- The small sigma-0 function of FIPS 180-4. -/
def ssig0 (x : Nat) : Nat := rotr32 7 x ^^^ rotr32 18 x ^^^ (x >>> 3)

/-- The small sigma-1 function of FIPS 180-4. -/
def ssig1 (x : Nat) : Nat := rotr32 17 x ^^^ rotr32 19 x ^^^ (x >>> 10)

/-- The choice function: bits of y where x has a one, bits of z elsewhere. -/
def chf (x y z : Nat) : Nat := (x &&& y) ^^^ ((x ^^^ 4294967295) &&& z)

/-- The majority function. -/
def majf (x y z : Nat) : Nat := (x &&& y) ^^^ (x &&& z) ^^^ (y &&& z)

/-- The sixty-four SHA-256 round constants of FIPS 180-4, written in
decimal. -/
def sha256K : List Nat :=
  [1116352408, 1899447441, 3049323471, 3921009573,
   961987163, 1508970993, 2453635748, 2870763221,
   3624381080, 310598401, 607225278, 1426881987,
   1925078388, 2162078206, 2614888103, 3248222580,
   3835390401, 4022224774, 264347078, 604807628,
   770255983, 1249150122, 1555081692, 1996064986,
   2554220882, 2821834349, 2952996808, 3210313671,
   3336571891, 3584528711, 113926993, 338241895,
   666307205, 773529912, 1294757372, 1396182291,
   1695183700, 1986661051, 2177026350, 2456956037,
   2730485921, 2820302411, 3259730800, 3345764771,
   3516065817, 3600352804, 4094571909, 275423344,
   430227734, 506948616, 659060556, 883997877,
   958139571, 1322822218, 1537002063, 1747873779,
   1955562222, 2024104815, 2227730452, 2361852424,
   2428436474, 2756734187, 3204031479, 3329325298]

/-- The eight-word SHA-256 internal state. -/
structure Hash8 where
  h0 : Nat
  h1 : Nat
  h2 : Nat
  h3 : Nat
  h4 : Nat
  h5 : Nat
  h6 : Nat
  h7 : Nat
deriving DecidableEq

/-- The SHA-256 initial state of FIPS 180-4, written in decimal. -/
def initH : Hash8 :=
  ⟨1779033703, 3144134277, 1013904242, 2773480762,
   1359893119, 2600822924, 528734635, 1541459225⟩

/-- Big-endian serialization of a 32-bit word to four bytes. -/
def wordBytes (w : Nat) : List Nat :=
  [w / 16777216 % 256, w / 65536 % 256, w / 256 % 256, w % 256]

/-- Big-endian serialization of the eight-word state to thirty-two bytes. -/
def hashBytes (H : Hash8) : List Nat :=
  wordBytes H.h0 ++ wordBytes H.h1 ++ wordBytes H.h2 ++ wordBytes H.h3 ++
  wordBytes H.h4 ++ wordBytes H.h5 ++ wordBytes H.h6 ++ wordBytes H.h7

/-- Group bytes four at a time into big-endian 32-bit words. -/
def toWords : List Nat → List Nat
  | a :: b :: c :: d :: rest => (a * 16777216 + b * 65536 + c * 256 + d) :: toWords rest
  | _ => []

/-- Entry i of the message schedule, zero out of range. -/
def wAt (w : List Nat) (i : Nat) : Nat := w.getD i 0

/-- Append the next word of the message schedule. -/
def extendStep (w : List Nat) : List Nat :=
  w ++ [w32 (ssig1 (wAt w (w.length - 2)) + wAt w (w.length - 7) +
             ssig0 (wAt w (w.length - 15)) + wAt w (w.length - 16))]

/-- Iterate the schedule extension. -/
def extendMany : Nat → List Nat → List Nat
  | 0, w => w
  | n + 1, w => extendMany n (extendStep w)

/-- The sixty-four-word message schedule of one chunk. -/
def scheduleOf (chunk : List Nat) : List Nat := extendMany 48 (toWords chunk)

/-- One SHA-256 compression round, consuming one round-constant and one
schedule word. -/
def roundStep (st : Hash8) (kw : Nat × Nat) : Hash8 :=
  let t1 := w32 (st.h7 + bsig1 st.h4 + chf st.h4 st.h5 st.h6 + kw.1 + kw.2)
  let t2 := w32 (bsig0 st.h0 + majf st.h0 st.h1 st.h2)
  ⟨w32 (t1 + t2), st.h0, st.h1, st.h2, w32 (st.h3 + t1), st.h4, st.h5, st.h6⟩

/-- Pointwise wrapped addition of two states. -/
def addH (a b : Hash8) : Hash8 :=
  ⟨w32 (a.h0 + b.h0), w32 (a.h1 + b.h1), w32 (a.h2 + b.h2), w32 (a.h3 + b.h3),
   w32 (a.h4 + b.h4), w32 (a.h5 + b.h5), w32 (a.h6 + b.h6), w32 (a.h7 + b.h7)⟩

/-- Compress one 64-byte chunk into the running state. -/
def compressChunk (H : Hash8) (chunk : List Nat) : Hash8 :=
  addH H ((List.zip sha256K (scheduleOf chunk)).foldl roundStep H)

/-- Big-endian 8-byte serialization of the bit length. -/
def lenBytes8 (n : Nat) : List Nat :=
  [n / 72057594037927936 % 256, n / 281474976710656 % 256,
   n / 1099511627776 % 256, n / 4294967296 % 256,
   n / 16777216 % 256, n / 65536 % 256, n / 256 % 256, n % 256]

/-- SHA-256 padding: the 128 byte, zeros, then the bit length, reaching a
multiple of sixty-four bytes. -/
def padMsg (msg : List Nat) : List Nat :=
  msg ++ 128 :: List.replicate ((64 - (msg.length + 9) % 64) % 64) 0 ++
    lenBytes8 (8 * msg.length)

/-- Cut a byte list into chunks of sixty-four, with fuel for structural
recursion; the fuel bounds the number of chunks, so the length of the list
itself always suffices. -/
def chunksAux : Nat → List Nat → List (List Nat)
  | 0, _ => []
  | _, [] => []
  | n + 1, b :: rest => ((b :: rest).take 64) :: chunksAux n ((b :: rest).drop 64)

/-- Cut a byte list into chunks of sixty-four bytes. -/
def chunks64 (l : List Nat) : List (List Nat) := chunksAux l.length l

/-- SHA-256 of a byte list, as thirty-two bytes. -/
def sha256Bytes (msg : List Nat) : List Nat :=
  hashBytes ((chunks64 (padMsg msg)).foldl compressChunk initH)

/-- HMAC-SHA256 with byte-list key and message (FIPS 198-1): hash an
over-long key, zero-pad to the sixty-four-byte block, then the nested hash
with the inner and outer pad constants. -/
def hmacSha256 (key msg : List Nat) : List Nat :=
  let k0 := if 64 < key.length then sha256Bytes key else key
  let kp := k0 ++ List.replicate (64 - k0.length) 0
  sha256Bytes (kp.map (fun b => b ^^^ 92) ++
    sha256Bytes (kp.map (fun b => b ^^^ 54) ++ msg))

/-- One lowercase hexadecimal digit. -/
def hexDigitChar (n : Nat) : Char :=
  if n < 10 then Char.ofNat (48 + n) else Char.ofNat (87 + n)

/-- Lowercase hexadecimal rendering of a byte list, two digits per byte. -/
def hexChars : List Nat → Str
  | [] => []
  | b :: bs => hexDigitChar (b / 16 % 16) :: hexDigitChar (b % 16) :: hexChars bs

/-- UTF-8 encoding of one character, as the Node Buffer utf8 encoder
produces it. -/
def utf8EncodeChar (c : Char) : List Nat :=
  let n := c.toNat
  if n < 128 then [n]
  else if n < 2048 then [192 + n / 64, 128 + n % 64]
  else if n < 65536 then [224 + n / 4096, 128 + n / 64 % 64, 128 + n % 64]
  else [240 + n / 262144, 128 + n / 4096 % 64, 128 + n / 64 % 64, 128 + n % 64]

/-- UTF-8 encoding of a string, the byte content of a Node Buffer built from
it with the utf8 encoding. -/
def utf8Bytes : Str → List Nat
  | [] => []
  | c :: cs => utf8EncodeChar c ++ utf8Bytes cs

/-- The hex digest the verifier compares against: HMAC-SHA256 keyed with the
UTF-8 bytes of the secret over the UTF-8 bytes of the message, rendered as
lowercase hexadecimal, as crypto.createHmac("sha256", secret) produces. -/
def hmacSha256Hex (key msg : Str) : Str :=
  hexChars (hmacSha256 (utf8Bytes key) (utf8Bytes msg))

/-! The App Proxy signature verifier, transcribed from verifyProxySignature,
server.js lines 401-489 of the deploy-ready variant. -/

/-- Configuration read from the environment: the signing secret, the two
fallback storefront path segments, and the shop domain. -/
structure Config where
  secret : Str
  proxyPfx : Str
  subPath : Str
  shop : Str
deriving DecidableEq

/-- The constant MOUNT mark of server.js, the local route under which the
endpoints are mounted. -/
def mountPfx : Str := "/proxy".data

/-- The fragment mark of the App Proxy signature parameter. -/
def sigMark : Str := "signature=".data

/-- The fragment mark of the hmac parameter of other flows. -/
def hmacMark : Str := "hmac=".data

/-- The query key carrying the storefront mount path. -/
def pathPfxKey : Str := "path_prefix".data

/-- The configured default storefront mount path, the template literal
joining slash, PROXY segment, slash, SUBPATH segment. -/
def fallbackPath (cfg : Config) : Str := '/' :: cfg.proxyPfx ++ '/' :: cfg.subPath

/-- Remove the local mount mark from the front of the raw path when present,
transcribing lines 429-431. -/
def serverPathname (rawPath : Str) : Str :=
  if mountPfx.isPrefixOf rawPath then rawPath.drop mountPfx.length else rawPath

/-- The provided-signature scan of lines 417-421: the first fragment starting
with either mark yields its value and stops the loop; no match leaves the
empty string. -/
def sigLoop : List Str → Str
  | [] => []
  | kv :: rest =>
    if sigMark.isPrefixOf kv then kv.drop sigMark.length
    else if hmacMark.isPrefixOf kv then kv.drop hmacMark.length
    else sigLoop rest

/-- The provided signature of a raw query, empty when the query is empty or
no fragment carries either mark. -/
def extractProvidedSignature (rawQuery : Str) : Str :=
  if rawQuery = [] then [] else sigLoop (splitAmp rawQuery)

/-- Decode a path-prefix value as line 441 does: the decoded value, or the
raw value when decoding throws. -/
def decodeVal (v : Str) : Str :=
  match decodeURIComponent v with
  | some d => d
  | none => v

/-- The path-prefix scan of lines 436-445: the first fragment whose key is
exactly path_prefix yields its decoded value and stops the loop; no match
leaves the empty string. -/
def pathPfxLoop : List Str → Str
  | [] => []
  | kv :: rest =>
    if (splitFirstEq kv).fst = pathPfxKey then decodeVal (splitFirstEq kv).snd
    else pathPfxLoop rest

/-- The decoded path-prefix of a raw query, empty when the query is empty or
carries no path_prefix key. -/
def decodedPathPfx (rawQuery : Str) : Str :=
  if rawQuery = [] then [] else pathPfxLoop (splitAmp rawQuery)

/-- The storefront mount path: the decoded path-prefix, or the configured
default when that is empty, transcribing line 447. -/
def storefrontMountOf (cfg : Config) (rawQuery : Str) : Str :=
  if decodedPathPfx rawQuery = [] then fallbackPath cfg else decodedPathPfx rawQuery

/-- The storefront path of line 449: mount path plus local route suffix. -/
def storefrontPathOf (cfg : Config) (rawPath rawQuery : Str) : Str :=
  storefrontMountOf cfg rawQuery ++ serverPathname rawPath

/-- Keep a fragment unless it starts with the signature or hmac mark or is
empty, the filter of line 456. -/
def keepFrag (kv : Str) : Bool :=
  !(sigMark.isPrefixOf kv || hmacMark.isPrefixOf kv || kv == [])

/-- The kept query of lines 452-460: surviving fragments in original order,
joined back with ampersands, the original bytes untouched. -/
def keptQuery (rawQuery : Str) : Str :=
  if rawQuery = [] then [] else joinAmp ((splitAmp rawQuery).filter keepFrag)

/-- The canonical message of line 463: the storefront path alone when the
kept query is empty, otherwise the two joined by a question mark. -/
def buildMessage (cfg : Config) (rawPath rawQuery : Str) : Str :=
  if keptQuery rawQuery = [] then storefrontPathOf cfg rawPath rawQuery
  else storefrontPathOf cfg rawPath rawQuery ++ '?' :: keptQuery rawQuery

/-- The verifier body after the URL split: fail on an empty secret, fail on a
missing provided signature, then compare the UTF-8 byte buffers of the
provided signature and of the computed hex digest, rejecting on a length
mismatch before the timing-safe equality, as lines 403-468 do. -/
def verifySigParts (cfg : Config) (rawPath rawQuery : Str) : Bool :=
  if cfg.secret = [] then false
  else if extractProvidedSignature rawQuery = [] then false
  else
    let digest := hmacSha256Hex cfg.secret (buildMessage cfg rawPath rawQuery)
    let sigBuf := utf8Bytes (extractProvidedSignature rawQuery)
    let digBuf := utf8Bytes digest
    sigBuf.length == digBuf.length && digBuf == sigBuf

/-- Verify the App Proxy signature of an original URL: split on the first
question mark into raw path and raw query, then check as above.  The
function is total, as the try-catch of lines 402-488 makes the original. -/
def verifyProxySignature (cfg : Config) (originalUrl : Str) : Bool :=
  verifySigParts cfg (splitFirstQmark originalUrl).fst (splitFirstQmark originalUrl).snd

/-! Customer resolution and the create-draft-order handler, transcribed from
findOrCreateCustomer (lines 567-591) and the POST route (lines 605-740).
The awaited admin-API calls are the only effects; they are embedded as
oracle values giving each call's outcome, and the calls made are collected
in a list so that call counts can be stated. -/

/-- A JavaScript optional string field is truthy when present and non-empty. -/
def jsTruthyStr : Option Str → Bool
  | some (_ :: _) => true
  | _ => false

/-- A JavaScript optional numeric field is truthy when present and nonzero. -/
def jsTruthyNum : Option Nat → Bool
  | some (_ + 1) => true
  | _ => false

/-- The customer contact block of the submission. -/
structure CustomerIn where
  email : Option Str
  first_name : Option Str
  last_name : Option Str
  phone : Option Str
  company : Option Str
deriving DecidableEq

/-- The contact block destructured from an absent body. -/
def customerDefault : CustomerIn := ⟨none, none, none, none, none⟩

/-- One record of the admin customer-search response; the id field may be
absent in the JSON. -/
structure CustomerRec where
  id : Option Nat
deriving DecidableEq

/-- The admin customer-search response body. -/
structure SearchResp where
  customers : List CustomerRec
deriving DecidableEq

/-- The admin customer-create response body. -/
structure CreateResp where
  customer : CustomerRec
deriving DecidableEq

/-- The customer-create request body of lines 578-586. -/
structure CustomerCreateBody where
  email : Option Str
  first_name : Option Str
  last_name : Option Str
  phone : Option Str
  verified_email : Bool
deriving DecidableEq

/-- One admin-API call made by the customer resolver. -/
inductive AdminCall where
  | searchCall (email : Str)
  | createCall (body : CustomerCreateBody)
deriving DecidableEq

/-- Outcomes of the two customer-related admin calls; the error carries the
message of the exception adminFetch throws on a non-success status. -/
structure AdminEnv where
  searchResp : Except Str SearchResp
  createResp : Except Str CreateResp

/-- The create body built from the contact: the four fields passed through,
and verified_email set by the double negation of the email field. -/
def createBodyOf (cust : CustomerIn) : CustomerCreateBody :=
  ⟨cust.email, cust.first_name, cust.last_name, cust.phone, jsTruthyStr cust.email⟩

/-- The id taken from the search response on line 573: the id of the first
record, collapsed to null when absent or falsy by the or-null idiom. -/
def firstMatchId (r : SearchResp) : Option Nat :=
  match r.customers with
  | [] => none
  | c :: _ =>
    match c.id with
    | some (n + 1) => some (n + 1)
    | _ => none

/-- The email carried by the search call (the query string embeds it). -/
def searchQueryOf (cust : CustomerIn) : Str :=
  match cust.email with
  | some e => e
  | none => []

/-- findOrCreateCustomer of lines 567-591: search when the email is truthy
and keep a truthy first-match id; otherwise create.  Returns the resolved id
(or the propagated upstream error) together with the admin calls made, in
order. -/
def findOrCreateCustomer (env : AdminEnv) (cust : CustomerIn) :
    Except Str (Option Nat) × List AdminCall :=
  if jsTruthyStr cust.email then
    match env.searchResp with
    | Except.error m => (Except.error m, [AdminCall.searchCall (searchQueryOf cust)])
    | Except.ok r =>
      match firstMatchId r with
      | some n => (Except.ok (some n), [AdminCall.searchCall (searchQueryOf cust)])
      | none =>
        match env.createResp with
        | Except.error m =>
          (Except.error m,
           [AdminCall.searchCall (searchQueryOf cust), AdminCall.createCall (createBodyOf cust)])
        | Except.ok c =>
          (Except.ok c.customer.id,
           [AdminCall.searchCall (searchQueryOf cust), AdminCall.createCall (createBodyOf cust)])
  else
    match env.createResp with
    | Except.error m => (Except.error m, [AdminCall.createCall (createBodyOf cust)])
    | Except.ok c => (Except.ok c.customer.id, [AdminCall.createCall (createBodyOf cust)])

/-- One submitted line item; absent fields are none, and a non-array
line_items value in the body is embedded as an absent one. -/
structure LineItemIn where
  variant_id : Option Nat
  title : Option Str
  price : Option Str
  quantity : Option Nat
  properties : Option (List (Str × Str))
deriving DecidableEq

/-- One mapped line item of the draft-order payload. -/
structure LineItemOut where
  variant_id : Option Nat
  title : Option Str
  price : Option Str
  quantity : Nat
  properties : List (Str × Str)
deriving DecidableEq

/-- The line-item mapping of lines 683-689: a truthy variant id spreads only
the numeric variant id, otherwise title and price are spread; quantity is the
numeric value of the field when truthy and one otherwise; properties default
to the empty list. -/
def mapLineItem (li : LineItemIn) : LineItemOut :=
  { variant_id := if jsTruthyNum li.variant_id then li.variant_id else none
    title := if jsTruthyNum li.variant_id then none else li.title
    price := if jsTruthyNum li.variant_id then none else li.price
    quantity :=
      match li.quantity with
      | some (n + 1) => n + 1
      | _ => 1
    properties :=
      match li.properties with
      | some ps => ps
      | none => [] }

/-- The request body of the POST route, destructured on lines 622-629. -/
structure BodyIn where
  line_items : Option (List LineItemIn)
  customer : CustomerIn
deriving DecidableEq

/-- The line-items value after the destructuring defaults: an absent body
destructures to the default empty array, a present body carries its own
field. -/
def lineItemsOf (body : Option BodyIn) : Option (List LineItemIn) :=
  match body with
  | none => some []
  | some b => b.line_items

/-- The contact block after the destructuring defaults. -/
def customerOf (body : Option BodyIn) : CustomerIn :=
  match body with
  | none => customerDefault
  | some b => b.customer

/-- The admin draft-order object of the upstream response; both fields may be
absent in the JSON. -/
structure DraftOrderObj where
  id : Option Nat
  invoice_url : Option Str
deriving DecidableEq

/-- The upstream draft-order creation response body. -/
structure DraftResp where
  draft_order : Option DraftOrderObj
deriving DecidableEq

/-- The id reached by the optional chain of line 719. -/
def draftIdOf (out : DraftResp) : Option Nat :=
  match out.draft_order with
  | some d => d.id
  | none => none

/-- The invoice value of line 720: the invoice url, collapsed to null when
absent or empty by the or-null idiom. -/
def invoiceOrNull (out : DraftResp) : Option Str :=
  match out.draft_order with
  | some d =>
    match d.invoice_url with
    | some (c :: cs) => some (c :: cs)
    | _ => none
  | none => none

/-- The admin URL of line 723. -/
def adminUrlOf (cfg : Config) (id : Nat) : Str :=
  "https://".data ++ cfg.shop ++ "/admin/draft_orders/".data ++ (Nat.repr id).data

/-- The observable outcome of one handler run: an error status with its JSON
error message, or the success body (with and without the verbose flag). -/
inductive HandlerResponse where
  | errorResp (status : Nat) (msg : Str)
  | okVerbose (reference : Nat) (adminUrl : Str) (draftOrderId : Nat) (invoiceUrl : Option Str)
  | okResp (reference : Nat) (adminUrl : Str) (invoiceUrl : Option Str)
deriving DecidableEq

/-- The POST create-draft-order handler of lines 605-740.  Control flow in
source order: the 401 gate unless the bypass flag is set, the 400 gate on
missing or empty line items, the awaited customer resolution, the awaited
draft-order creation on the mapped line items, the falsy-id 500, then the
success response shaped by the verbose query flag.  Thrown upstream errors
surface as 500 with the error message, as the top-level catch does. -/
def handleCreateDraftOrder (cfg : Config) (allowUnverified : Bool) (url : Str)
    (body : Option BodyIn) (env : AdminEnv)
    (draftOracle : List LineItemOut → Except Str DraftResp)
    (verbose : Bool) : HandlerResponse :=
  if allowUnverified = false ∧ verifyProxySignature cfg url = false then
    HandlerResponse.errorResp 401 "Invalid HMAC".data
  else
    match lineItemsOf body with
    | none => HandlerResponse.errorResp 400 "No line items".data
    | some [] => HandlerResponse.errorResp 400 "No line items".data
    | some (li0 :: lis) =>
      match (findOrCreateCustomer env (customerOf body)).fst with
      | Except.error m => HandlerResponse.errorResp 500 m
      | Except.ok _ =>
        match draftOracle (List.map mapLineItem (li0 :: lis)) with
        | Except.error m => HandlerResponse.errorResp 500 m
        | Except.ok out =>
          match draftIdOf out with
          | some (n + 1) =>
            if verbose then
              HandlerResponse.okVerbose (n + 1) (adminUrlOf cfg (n + 1)) (n + 1) (invoiceOrNull out)
            else
              HandlerResponse.okResp (n + 1) (adminUrlOf cfg (n + 1)) (invoiceOrNull out)
          | _ => HandlerResponse.errorResp 500 "No draft order id returned".data

/-! Claim-side definitions.  Each one transcribes the words of a claim of
the specification, to be compared with the code-side functions above. -/

/-- Whether some fragment of the raw query begins with the signature or hmac
mark, the presence condition named by the error-handling claim. -/
def hasSigFrag (rawQuery : Str) : Bool :=
  (splitAmp rawQuery).any fun kv => sigMark.isPrefixOf kv || hmacMark.isPrefixOf kv

/-- Whether some fragment of the raw query has key exactly path_prefix and an
empty value, the condition named by the empty-path-prefix claim. -/
def hasEmptyPathPfxFrag (rawQuery : Str) : Bool :=
  (splitAmp rawQuery).any fun kv =>
    (splitFirstEq kv).fst == pathPfxKey && (splitFirstEq kv).snd == []

/-- The raw value of the first fragment whose key is exactly path_prefix,
none when no fragment has that key. -/
def findPathPfx : List Str → Option Str
  | [] => none
  | kv :: rest =>
    if (splitFirstEq kv).fst = pathPfxKey then some (splitFirstEq kv).snd
    else findPathPfx rest

/-- Transcribes the canonical-message claim as written: the storefront mount
is the percent-decoded value of the first path_prefix fragment, the raw value
when decoding throws, and the configured default exactly when the key is
absent. -/
def storefrontMountClaim (cfg : Config) (rawQuery : Str) : Str :=
  match findPathPfx (splitAmp rawQuery) with
  | some v => decodeVal v
  | none => fallbackPath cfg

/-- The canonical message as the claim words it, built on the claimed
storefront mount; kept query and mount-stripped path read exactly as the code
does, so those parts are shared. -/
def buildMessageClaim (cfg : Config) (rawPath rawQuery : Str) : Str :=
  if keptQuery rawQuery = [] then storefrontMountClaim cfg rawQuery ++ serverPathname rawPath
  else storefrontMountClaim cfg rawQuery ++ serverPathname rawPath ++ '?' :: keptQuery rawQuery

/-- The claimed storefront mount amended as the code forces: the configured
default is also used when the first path_prefix value is (or decodes to) the
empty string. -/
def storefrontMountAmended (cfg : Config) (rawQuery : Str) : Str :=
  match findPathPfx (splitAmp rawQuery) with
  | some v => if decodeVal v = [] then fallbackPath cfg else decodeVal v
  | none => fallbackPath cfg

/-- The canonical message of the amended claim. -/
def buildMessageAmended (cfg : Config) (rawPath rawQuery : Str) : Str :=
  if keptQuery rawQuery = [] then storefrontMountAmended cfg rawQuery ++ serverPathname rawPath
  else storefrontMountAmended cfg rawQuery ++ serverPathname rawPath ++ '?' :: keptQuery rawQuery

/-- The line-item mapping as the claim words it: a truthy variant id yields
variant id, quantity and properties with no title or price, anything else
yields title, price, quantity and properties; quantity is the numeric value
when truthy and one when unspecified or falsy; properties are the submitted
ones when present and empty otherwise. -/
def mapLineItemClaim (li : LineItemIn) : LineItemOut :=
  let q : Nat :=
    match li.quantity with
    | some (n + 1) => n + 1
    | _ => 1
  let ps : List (Str × Str) :=
    match li.properties with
    | some ps => ps
    | none => []
  if jsTruthyNum li.variant_id then
    { variant_id := li.variant_id, title := none, price := none, quantity := q, properties := ps }
  else
    { variant_id := none, title := li.title, price := li.price, quantity := q, properties := ps }

/-! Concrete values used by witnesses and counterexamples. -/

/-- A small example configuration with the default storefront segments. -/
def cfgW : Config := ⟨"sek".data, "apps".data, "rfq".data, "shop.example".data⟩

/-- An example configuration with an empty secret. -/
def cfgNoSecret : Config := ⟨[], "apps".data, "rfq".data, "shop.example".data⟩

/-- A submitted line item carrying only variant id and quantity. -/
def liVariant : LineItemIn := ⟨some 123, none, none, some 2, none⟩

/-- A submitted free-text line item with no quantity. -/
def liFreeText : LineItemIn := ⟨none, some "Custom rug".data, some "99.00".data, none, none⟩

/-- A body whose line_items array is empty. -/
def bodyEmptyItems : BodyIn := ⟨some [], customerDefault⟩

/-- A body with one variant line item. -/
def bodyOneItem : BodyIn := ⟨some [liVariant], customerDefault⟩

/-- An admin environment whose search and create calls both succeed. -/
def envOk : AdminEnv :=
  ⟨Except.ok ⟨[⟨some 77⟩]⟩, Except.ok ⟨⟨some 88⟩⟩⟩

/-- A search response whose first record has a falsy id while a later record
has a truthy one. -/
def searchFalsyFirst : SearchResp := ⟨[⟨some 0⟩, ⟨some 7⟩]⟩

/-- An admin environment returning that search response. -/
def envFalsyFirst : AdminEnv := ⟨Except.ok searchFalsyFirst, Except.ok ⟨⟨some 9⟩⟩⟩

/-- A contact with an email address. -/
def custEmail : CustomerIn := ⟨some "a@b.c".data, some "Ann".data, none, none, none⟩

/-- A contact with no email address. -/
def custNoEmail : CustomerIn := ⟨none, some "Bo".data, none, some "555".data, none⟩

/-- An upstream draft-order response whose id is present but zero. -/
def draftZeroId : DraftResp := ⟨some ⟨some 0, some "https://inv.example/i".data⟩⟩

/-- An upstream draft-order response with a truthy id and no invoice url. -/
def draftNoInvoice : DraftResp := ⟨some ⟨some 3, none⟩⟩

/-- A draft oracle answering every request with a fixed response. -/
def constOracle (out : DraftResp) : List LineItemOut → Except Str DraftResp :=
  fun _ => Except.ok out

/-! Supporting lemmas about the splitting and joining of fragments. -/

theorem splitAmp_ne_nil (l : Str) : splitAmp l ≠ [] := by
  cases l with
  | nil => simp [splitAmp]
  | cons c rest =>
    simp only [splitAmp]
    by_cases hc : c = '&'
    · simp [hc]
    · simp only [if_neg hc]
      cases h : splitAmp rest <;> simp

theorem splitAmp_append (f l g : Str) (gs : List Str)
    (hf : '&' ∉ f) (hl : splitAmp l = g :: gs) :
    splitAmp (f ++ l) = (f ++ g) :: gs := by
  induction f with
  | nil => simpa using hl
  | cons c f ih =>
    have hc : ¬ c = '&' := fun h => hf (by simp [h])
    have hf' : '&' ∉ f := fun h => hf (List.mem_cons_of_mem _ h)
    simp only [List.cons_append, splitAmp, if_neg hc, List.append_eq]
    rw [ih hf']

theorem splitAmp_joinAmp : ∀ l : List Str, l ≠ [] → (∀ f ∈ l, '&' ∉ f) →
    splitAmp (joinAmp l) = l
  | [], h, _ => absurd rfl h
  | [f], _, hf => by
    have h := splitAmp_append f [] [] [] (hf f (by simp)) (by simp [splitAmp])
    simpa [joinAmp] using h
  | f :: g :: t, _, hf => by
    have ih := splitAmp_joinAmp (g :: t) (by simp)
      (fun x hx => hf x (List.mem_cons_of_mem _ hx))
    have h1 : splitAmp ('&' :: joinAmp (g :: t)) = [] :: g :: t := by
      simp [splitAmp, ih]
    have h2 := splitAmp_append f ('&' :: joinAmp (g :: t)) [] (g :: t) (hf f (by simp)) h1
    simpa [joinAmp] using h2

theorem joinAmp_ne_nil : ∀ l : List Str, (∃ s ∈ l, s ≠ []) → joinAmp l ≠ []
  | [], h => by simp at h
  | [f], h => by
    have hf : f ≠ [] := by
      rcases h with ⟨s, hs, hne⟩
      simp at hs
      simpa [hs] using hne
    simpa [joinAmp] using hf
  | f :: g :: t, _ => by
    simp only [joinAmp]
    intro h
    rcases List.append_eq_nil.mp h with ⟨-, h2⟩
    exact absurd h2 (by simp)

/-! Supporting lemmas about UTF-8 encoding and digest lengths. -/

theorem utf8EncodeChar_ne_nil (c : Char) : utf8EncodeChar c ≠ [] := by
  intro h
  simp only [utf8EncodeChar] at h
  split at h
  · simp at h
  · split at h
    · simp at h
    · split at h
      · simp at h
      · simp at h

theorem utf8Bytes_eq_nil {l : Str} : utf8Bytes l = [] ↔ l = [] := by
  cases l with
  | nil => simp [utf8Bytes]
  | cons c cs =>
    simp only [utf8Bytes, List.append_eq_nil]
    constructor
    · rintro ⟨h1, -⟩
      exact absurd h1 (utf8EncodeChar_ne_nil c)
    · intro h
      exact absurd h (by simp)

theorem hashBytes_len (H : Hash8) : (hashBytes H).length = 32 := rfl

theorem sha256Bytes_len (m : List Nat) : (sha256Bytes m).length = 32 :=
  hashBytes_len _

theorem hexChars_len : ∀ l : List Nat, (hexChars l).length = 2 * l.length
  | [] => rfl
  | b :: bs => by
    simp only [hexChars, List.length_cons, hexChars_len bs]
    omega

theorem hmacSha256_len (k m : List Nat) : (hmacSha256 k m).length = 32 := by
  unfold hmacSha256
  exact sha256Bytes_len _

theorem hmacSha256Hex_len (k m : Str) : (hmacSha256Hex k m).length = 64 := by
  unfold hmacSha256Hex
  rw [hexChars_len, hmacSha256_len]

theorem hmacSha256Hex_ne_nil (k m : Str) : hmacSha256Hex k m ≠ [] := by
  intro h
  have hl := hmacSha256Hex_len k m
  rw [h] at hl
  simp at hl

/-! Supporting lemmas about the fragment scans. -/

theorem sigLoop_mem_mark : ∀ fs : List Str, sigLoop fs ≠ [] →
    (fs.any fun kv => sigMark.isPrefixOf kv || hmacMark.isPrefixOf kv) = true
  | [], h => absurd rfl h
  | kv :: rest, h => by
    by_cases h1 : sigMark.isPrefixOf kv
    · simp [h1]
    · by_cases h2 : hmacMark.isPrefixOf kv
      · simp [h2]
      · have h3 : sigLoop rest ≠ [] := by
          simpa [sigLoop, h1, h2] using h
        simp [sigLoop, h1, h2, sigLoop_mem_mark rest h3]

theorem pathPfxLoop_eq_find : ∀ fs : List Str,
    pathPfxLoop fs =
      (match findPathPfx fs with
       | some v => decodeVal v
       | none => [])
  | [] => rfl
  | kv :: rest => by
    by_cases h : (splitFirstEq kv).fst = pathPfxKey
    · simp [pathPfxLoop, findPathPfx, h]
    · simp [pathPfxLoop, findPathPfx, h, pathPfxLoop_eq_find rest]

theorem storefrontMount_eq_amended (cfg : Config) (q : Str) :
    storefrontMountOf cfg q = storefrontMountAmended cfg q := by
  by_cases hq : q = []
  · subst hq
    have h1 : findPathPfx (splitAmp ([] : Str)) = none := by decide
    simp [storefrontMountOf, storefrontMountAmended, decodedPathPfx, h1]
  · have h2 : decodedPathPfx q = pathPfxLoop (splitAmp q) := by
      simp [decodedPathPfx, hq]
    unfold storefrontMountOf storefrontMountAmended
    rw [h2, pathPfxLoop_eq_find]
    cases hf : findPathPfx (splitAmp q) with
    | none => simp
    | some v => simp

/-! Claim C1. -/

/-- Claim C1 counterexample: on the query path_prefix=&a=b the verifier falls
back to the configured default mount because the path_prefix value is empty,
while the claim as written (default only when the key is absent) predicts an
empty mount; the two canonical messages differ. -/
theorem canonical_message_c1_counterexample :
    buildMessage cfgW "/proxy/create-draft-order".data "path_prefix=&a=b".data =
      "/apps/rfq/create-draft-order?path_prefix=&a=b".data ∧
    buildMessageClaim cfgW "/proxy/create-draft-order".data "path_prefix=&a=b".data =
      "/create-draft-order?path_prefix=&a=b".data ∧
    ¬ buildMessage cfgW "/proxy/create-draft-order".data "path_prefix=&a=b".data =
        buildMessageClaim cfgW "/proxy/create-draft-order".data "path_prefix=&a=b".data := by
  decide

/-- Claim C1 as amended: for every configuration, raw path and raw query, the
canonical message computed by the verifier equals the claimed shape, where the
storefront mount is the percent-decoded value of the first path_prefix
fragment, the raw value when decoding throws, and the configured default when
the key is absent or that value is empty; the kept query is the raw
fragments in original order with signature, hmac and empty fragments dropped,
joined byte-for-byte. -/
theorem canonical_message_c1_amended (cfg : Config) (rawPath rawQuery : Str) :
    buildMessage cfg rawPath rawQuery = buildMessageAmended cfg rawPath rawQuery := by
  by_cases hk : keptQuery rawQuery = []
  · simp [buildMessage, buildMessageAmended, storefrontPathOf,
      storefrontMount_eq_amended, hk]
  · simp [buildMessage, buildMessageAmended, storefrontPathOf,
      storefrontMount_eq_amended, hk, List.append_assoc]

/-! Claim C2. -/

/-- Claim C2: verification accepts exactly when a signature or hmac fragment
is present in the raw query, the configured secret is non-empty, and the
UTF-8 byte buffer of the provided signature has the byte length of, and the
bytes of, the 64-character lowercase hex HMAC-SHA256 digest of the canonical
message; in every other case the verifier, a total function, returns false. -/
theorem verify_accept_iff_c2 (cfg : Config) (url : Str) :
    verifyProxySignature cfg url = true ↔
      (hasSigFrag (splitFirstQmark url).snd = true ∧
       cfg.secret ≠ [] ∧
       (hmacSha256Hex cfg.secret
          (buildMessage cfg (splitFirstQmark url).fst (splitFirstQmark url).snd)).length = 64 ∧
       (utf8Bytes (extractProvidedSignature (splitFirstQmark url).snd)).length =
         (utf8Bytes (hmacSha256Hex cfg.secret
            (buildMessage cfg (splitFirstQmark url).fst (splitFirstQmark url).snd))).length ∧
       utf8Bytes (extractProvidedSignature (splitFirstQmark url).snd) =
         utf8Bytes (hmacSha256Hex cfg.secret
            (buildMessage cfg (splitFirstQmark url).fst (splitFirstQmark url).snd))) := by
  unfold verifyProxySignature verifySigParts
  by_cases hs : cfg.secret = []
  · simp [hs]
  · rw [if_neg hs]
    by_cases hpr : extractProvidedSignature (splitFirstQmark url).snd = []
    · rw [if_pos hpr]
      constructor
      · intro h
        exact absurd h (by simp)
      · rintro ⟨-, -, -, -, h5⟩
        rw [hpr] at h5
        have hdig : hmacSha256Hex cfg.secret
            (buildMessage cfg (splitFirstQmark url).fst (splitFirstQmark url).snd) = [] :=
          utf8Bytes_eq_nil.mp h5.symm
        exact absurd hdig (hmacSha256Hex_ne_nil _ _)
    · rw [if_neg hpr]
      simp only [Bool.and_eq_true, beq_iff_eq]
      constructor
      · rintro ⟨h1, h2⟩
        have hq0 : ¬ (splitFirstQmark url).snd = [] := fun h =>
          hpr (by simp [extractProvidedSignature, h])
        have hsl : sigLoop (splitAmp (splitFirstQmark url).snd) ≠ [] := by
          simpa [extractProvidedSignature, hq0] using hpr
        exact ⟨sigLoop_mem_mark _ hsl, hs, hmacSha256Hex_len _ _, h1, h2.symm⟩
      · rintro ⟨-, -, -, h4, h5⟩
        exact ⟨h4, h5.symm⟩

/-! Claim C3 supporting lemmas. -/

theorem sigLoop_skip : ∀ pre : List Str,
    (∀ f ∈ pre, sigMark.isPrefixOf f = false ∧ hmacMark.isPrefixOf f = false) →
    ∀ rest : List Str, sigLoop (pre ++ rest) = sigLoop rest
  | [], _, rest => rfl
  | kv :: pre, h, rest => by
    have hkv := h kv (by simp)
    have hp : ∀ f ∈ pre, sigMark.isPrefixOf f = false ∧ hmacMark.isPrefixOf f = false :=
      fun f hf => h f (List.mem_cons_of_mem _ hf)
    simp [sigLoop, hkv.1, hkv.2, sigLoop_skip pre hp rest]

theorem sig_not_of_hmac {s : Str} (h : hmacMark.isPrefixOf s = true) :
    sigMark.isPrefixOf s = false := by
  rcases List.isPrefixOf_iff_prefix.mp h with ⟨t, rfl⟩
  rfl

theorem splitFirstEq_sig {s : Str} (h : sigMark.isPrefixOf s = true) :
    (splitFirstEq s).fst = "signature".data := by
  rcases List.isPrefixOf_iff_prefix.mp h with ⟨t, rfl⟩
  rfl

theorem pathPfxLoop_middle {s : Str} (hs : ¬ (splitFirstEq s).fst = pathPfxKey) :
    ∀ pre post : List Str, pathPfxLoop (pre ++ s :: post) = pathPfxLoop (pre ++ post)
  | [], post => by simp [pathPfxLoop, hs]
  | kv :: pre, post => by
    by_cases h : (splitFirstEq kv).fst = pathPfxKey
    · simp [pathPfxLoop, h]
    · simp [pathPfxLoop, h, pathPfxLoop_middle hs pre post]

theorem extract_join {l : List Str} (hne : joinAmp l ≠ [])
    (hsp : splitAmp (joinAmp l) = l) :
    extractProvidedSignature (joinAmp l) = sigLoop l := by
  simp [extractProvidedSignature, hne, hsp]

theorem decodedPathPfx_join {l : List Str} (hne : joinAmp l ≠ [])
    (hsp : splitAmp (joinAmp l) = l) :
    decodedPathPfx (joinAmp l) = pathPfxLoop l := by
  simp [decodedPathPfx, hne, hsp]

theorem keptQuery_join {l : List Str} (hne : joinAmp l ≠ [])
    (hsp : splitAmp (joinAmp l) = l) :
    keptQuery (joinAmp l) = joinAmp (l.filter keepFrag) := by
  simp [keptQuery, hne, hsp]

/-! Claim C3. -/

/-- Claim C3: for a raw query holding exactly one signature fragment and no
hmac fragment, the canonical message, and with it the verification outcome
for a fixed secret, does not change when the signature fragment is moved to
any other position among the remaining fragments; and the kept query is
exactly the non-signature fragments in their original order and original
bytes (the empty ones dropped). -/
theorem signature_position_c3 (cfg : Config) (rawPath s : Str)
    (pre post pre2 post2 : List Str)
    (hsig : sigMark.isPrefixOf s = true)
    (hamp : '&' ∉ s)
    (hoth : ∀ f ∈ pre ++ post,
      sigMark.isPrefixOf f = false ∧ hmacMark.isPrefixOf f = false ∧ '&' ∉ f)
    (hperm : pre ++ post = pre2 ++ post2) :
    buildMessage cfg rawPath (joinAmp (pre ++ s :: post)) =
      buildMessage cfg rawPath (joinAmp (pre2 ++ s :: post2)) ∧
    verifySigParts cfg rawPath (joinAmp (pre ++ s :: post)) =
      verifySigParts cfg rawPath (joinAmp (pre2 ++ s :: post2)) ∧
    keptQuery (joinAmp (pre ++ s :: post)) =
      joinAmp ((pre ++ post).filter fun f => !(f == [])) := by
  have hoth2 : ∀ f ∈ pre2 ++ post2,
      sigMark.isPrefixOf f = false ∧ hmacMark.isPrefixOf f = false ∧ '&' ∉ f := by
    intro f hf
    exact hoth f (hperm ▸ hf)
  have hs_ne : s ≠ [] := by
    intro h
    rw [h] at hsig
    exact absurd hsig (by decide)
  have hmem1 : ∀ f ∈ pre ++ s :: post, '&' ∉ f := by
    intro f hf
    rcases List.mem_append.mp hf with h | h
    · exact (hoth f (List.mem_append_left _ h)).2.2
    · rcases List.mem_cons.mp h with h | h
      · exact h ▸ hamp
      · exact (hoth f (List.mem_append_right _ h)).2.2
  have hmem2 : ∀ f ∈ pre2 ++ s :: post2, '&' ∉ f := by
    intro f hf
    rcases List.mem_append.mp hf with h | h
    · exact (hoth2 f (List.mem_append_left _ h)).2.2
    · rcases List.mem_cons.mp h with h | h
      · exact h ▸ hamp
      · exact (hoth2 f (List.mem_append_right _ h)).2.2
  have hJ1 : splitAmp (joinAmp (pre ++ s :: post)) = pre ++ s :: post :=
    splitAmp_joinAmp _ (by simp) hmem1
  have hJ2 : splitAmp (joinAmp (pre2 ++ s :: post2)) = pre2 ++ s :: post2 :=
    splitAmp_joinAmp _ (by simp) hmem2
  have hne1 : joinAmp (pre ++ s :: post) ≠ [] :=
    joinAmp_ne_nil _ ⟨s, by simp, hs_ne⟩
  have hne2 : joinAmp (pre2 ++ s :: post2) ≠ [] :=
    joinAmp_ne_nil _ ⟨s, by simp, hs_ne⟩
  have hkeep_s : keepFrag s = false := by
    simp [keepFrag, hsig]
  have hfil1 : (pre ++ s :: post).filter keepFrag = (pre ++ post).filter keepFrag := by
    simp [List.filter_append, List.filter_cons, hkeep_s]
  have hfil2 : (pre2 ++ s :: post2).filter keepFrag = (pre2 ++ post2).filter keepFrag := by
    simp [List.filter_append, List.filter_cons, hkeep_s]
  have hK1 : keptQuery (joinAmp (pre ++ s :: post)) =
      joinAmp ((pre ++ post).filter keepFrag) := by
    rw [keptQuery_join hne1 hJ1, hfil1]
  have hK2 : keptQuery (joinAmp (pre2 ++ s :: post2)) =
      joinAmp ((pre ++ post).filter keepFrag) := by
    rw [keptQuery_join hne2 hJ2, hfil2, hperm]
  have hkey : ¬ (splitFirstEq s).fst = pathPfxKey := by
    rw [splitFirstEq_sig hsig]
    decide
  have hD1 : decodedPathPfx (joinAmp (pre ++ s :: post)) = pathPfxLoop (pre ++ post) := by
    rw [decodedPathPfx_join hne1 hJ1, pathPfxLoop_middle hkey]
  have hD2 : decodedPathPfx (joinAmp (pre2 ++ s :: post2)) = pathPfxLoop (pre ++ post) := by
    rw [decodedPathPfx_join hne2 hJ2, pathPfxLoop_middle hkey, hperm]
  have hE1 : extractProvidedSignature (joinAmp (pre ++ s :: post)) =
      s.drop sigMark.length := by
    rw [extract_join hne1 hJ1,
      sigLoop_skip pre (fun f hf => ⟨(hoth f (List.mem_append_left _ hf)).1,
        (hoth f (List.mem_append_left _ hf)).2.1⟩)]
    simp [sigLoop, hsig]
  have hE2 : extractProvidedSignature (joinAmp (pre2 ++ s :: post2)) =
      s.drop sigMark.length := by
    rw [extract_join hne2 hJ2,
      sigLoop_skip pre2 (fun f hf => ⟨(hoth2 f (List.mem_append_left _ hf)).1,
        (hoth2 f (List.mem_append_left _ hf)).2.1⟩)]
    simp [sigLoop, hsig]
  have hb : buildMessage cfg rawPath (joinAmp (pre ++ s :: post)) =
      buildMessage cfg rawPath (joinAmp (pre2 ++ s :: post2)) := by
    unfold buildMessage storefrontPathOf storefrontMountOf
    rw [hK1, hK2, hD1, hD2]
  refine ⟨hb, ?_, ?_⟩
  · unfold verifySigParts
    rw [hE1, hE2, hb]
  · rw [hK1]
    have : (pre ++ post).filter keepFrag =
        (pre ++ post).filter fun f => !(f == []) := by
      refine List.filter_congr ?_
      intro f hf
      simp [keepFrag, (hoth f hf).1, (hoth f hf).2.1]
    rw [this]

/-- Claim C3 witness: a concrete application with the signature fragment
between two pairs and then in front of them. -/
theorem signature_position_c3_witness :
    buildMessage cfgW "/proxy/create-draft-order".data
        (joinAmp (["a=1".data] ++ "signature=abc".data :: ["b=2".data])) =
      buildMessage cfgW "/proxy/create-draft-order".data
        (joinAmp ([] ++ "signature=abc".data :: ["a=1".data, "b=2".data])) ∧
    verifySigParts cfgW "/proxy/create-draft-order".data
        (joinAmp (["a=1".data] ++ "signature=abc".data :: ["b=2".data])) =
      verifySigParts cfgW "/proxy/create-draft-order".data
        (joinAmp ([] ++ "signature=abc".data :: ["a=1".data, "b=2".data])) ∧
    keptQuery (joinAmp (["a=1".data] ++ "signature=abc".data :: ["b=2".data])) =
      joinAmp ((["a=1".data] ++ ["b=2".data]).filter fun f => !(f == [])) :=
  signature_position_c3 cfgW "/proxy/create-draft-order".data "signature=abc".data
    ["a=1".data] ["b=2".data] [] ["a=1".data, "b=2".data]
    (by decide) (by decide) (by decide) (by decide)

/-! Claim C4. -/

/-- Claim C4 counterexample: with the bypass off, an empty line_items array
and no signature in the query, the handler answers 401 Invalid HMAC, not the
400 No line items the claim predicts for every signature state; the
verification gate precedes the line-items check. -/
theorem no_line_items_c4_counterexample :
    handleCreateDraftOrder cfgW false "/proxy/create-draft-order".data
        (some bodyEmptyItems) envOk (constOracle draftNoInvoice) false =
      HandlerResponse.errorResp 401 "Invalid HMAC".data ∧
    ¬ handleCreateDraftOrder cfgW false "/proxy/create-draft-order".data
        (some bodyEmptyItems) envOk (constOracle draftNoInvoice) false =
      HandlerResponse.errorResp 400 "No line items".data := by
  decide

/-- Claim C4 amended: for every POST whose body lacks a line_items array or
holds an empty one, and which passes verification or runs with the bypass
flag on, the handler responds 400 with the No line items error; the
verifying state precedes the received-state rejection. -/
theorem no_line_items_c4_amended (cfg : Config) (allowUnverified : Bool)
    (url : Str) (body : Option BodyIn) (env : AdminEnv)
    (oracle : List LineItemOut → Except Str DraftResp) (verbose : Bool)
    (hauth : allowUnverified = true ∨ verifyProxySignature cfg url = true)
    (hempty : lineItemsOf body = none ∨ lineItemsOf body = some []) :
    handleCreateDraftOrder cfg allowUnverified url body env oracle verbose =
      HandlerResponse.errorResp 400 "No line items".data := by
  unfold handleCreateDraftOrder
  have hcond : ¬ (allowUnverified = false ∧ verifyProxySignature cfg url = false) := by
    rintro ⟨h1, h2⟩
    rcases hauth with h | h
    · rw [h1] at h
      simp at h
    · rw [h2] at h
      simp at h
  rw [if_neg hcond]
  rcases hempty with h | h <;> rw [h]

/-- Claim C4 witness: bypass on and an empty line_items array draw the 400. -/
theorem no_line_items_c4_witness :
    handleCreateDraftOrder cfgW true "/proxy/create-draft-order".data
        (some bodyEmptyItems) envOk (constOracle draftNoInvoice) false =
      HandlerResponse.errorResp 400 "No line items".data :=
  no_line_items_c4_amended cfgW true "/proxy/create-draft-order".data
    (some bodyEmptyItems) envOk (constOracle draftNoInvoice) false
    (Or.inl rfl) (Or.inr rfl)

/-! Claim C5. -/

/-- Claim C5 counterexample: with an hmac fragment before the signature
fragment, the extracted provided signature is the hmac value, not the
signature value the claim predicts for every relative ordering. -/
theorem provided_signature_c5_counterexample :
    extractProvidedSignature "hmac=aaa&signature=bbb".data = "aaa".data ∧
    ¬ extractProvidedSignature "hmac=aaa&signature=bbb".data = "bbb".data := by
  decide

/-- Claim C5 amended: the provided signature is the value of the first
fragment carrying either mark, in raw-query order: after any markless
fragments, a leading signature fragment wins over everything that follows,
and symmetrically a leading hmac fragment wins even over a later signature
fragment. -/
theorem provided_signature_c5_amended (s : Str) (pre post : List Str)
    (hpre : ∀ f ∈ pre, sigMark.isPrefixOf f = false ∧ hmacMark.isPrefixOf f = false)
    (hamp : ∀ f ∈ pre ++ s :: post, '&' ∉ f) :
    (sigMark.isPrefixOf s = true →
      extractProvidedSignature (joinAmp (pre ++ s :: post)) = s.drop sigMark.length) ∧
    (hmacMark.isPrefixOf s = true →
      extractProvidedSignature (joinAmp (pre ++ s :: post)) = s.drop hmacMark.length) := by
  constructor
  · intro hsig
    have hs_ne : s ≠ [] := by
      intro h
      rw [h] at hsig
      exact absurd hsig (by decide)
    have hJ : splitAmp (joinAmp (pre ++ s :: post)) = pre ++ s :: post :=
      splitAmp_joinAmp _ (by simp) hamp
    have hne : joinAmp (pre ++ s :: post) ≠ [] :=
      joinAmp_ne_nil _ ⟨s, by simp, hs_ne⟩
    rw [extract_join hne hJ, sigLoop_skip pre hpre]
    simp [sigLoop, hsig]
  · intro hhmac
    have hs_ne : s ≠ [] := by
      intro h
      rw [h] at hhmac
      exact absurd hhmac (by decide)
    have hJ : splitAmp (joinAmp (pre ++ s :: post)) = pre ++ s :: post :=
      splitAmp_joinAmp _ (by simp) hamp
    have hne : joinAmp (pre ++ s :: post) ≠ [] :=
      joinAmp_ne_nil _ ⟨s, by simp, hs_ne⟩
    rw [extract_join hne hJ, sigLoop_skip pre hpre]
    simp [sigLoop, sig_not_of_hmac hhmac, hhmac]

/-- Claim C5 witness: a leading hmac fragment wins over a later signature
fragment. -/
theorem provided_signature_c5_witness :
    extractProvidedSignature (joinAmp ([] ++ "hmac=aaa".data :: ["signature=bbb".data])) =
      "hmac=aaa".data.drop hmacMark.length :=
  (provided_signature_c5_amended "hmac=aaa".data [] ["signature=bbb".data]
    (by decide) (by decide)).2 (by decide)

/-! Claim C6. -/

/-- Claim C6: whenever verification fails and the bypass flag is off, the
handler responds exactly 401 with the fixed Invalid HMAC body; two runs that
fail verification agree on the response whatever their configuration (hence
whatever the secret and the computed digest), so neither ever reaches the
caller. -/
theorem invalid_hmac_response_c6 (cfg cfg2 : Config) (url url2 : Str)
    (body body2 : Option BodyIn) (env env2 : AdminEnv)
    (oracle oracle2 : List LineItemOut → Except Str DraftResp)
    (verbose verbose2 : Bool)
    (h : verifyProxySignature cfg url = false)
    (h2 : verifyProxySignature cfg2 url2 = false) :
    handleCreateDraftOrder cfg false url body env oracle verbose =
      HandlerResponse.errorResp 401 "Invalid HMAC".data ∧
    handleCreateDraftOrder cfg2 false url2 body2 env2 oracle2 verbose2 =
      HandlerResponse.errorResp 401 "Invalid HMAC".data ∧
    handleCreateDraftOrder cfg false url body env oracle verbose =
      handleCreateDraftOrder cfg2 false url2 body2 env2 oracle2 verbose2 := by
  have e1 : handleCreateDraftOrder cfg false url body env oracle verbose =
      HandlerResponse.errorResp 401 "Invalid HMAC".data := by
    unfold handleCreateDraftOrder
    rw [if_pos ⟨rfl, h⟩]
  have e2 : handleCreateDraftOrder cfg2 false url2 body2 env2 oracle2 verbose2 =
      HandlerResponse.errorResp 401 "Invalid HMAC".data := by
    unfold handleCreateDraftOrder
    rw [if_pos ⟨rfl, h2⟩]
  exact ⟨e1, e2, e1.trans e2.symm⟩

/-- Claim C6 witness: two failing runs, one with a secret and no signature,
one with an empty secret, both answer the constant 401 body. -/
theorem invalid_hmac_response_c6_witness :
    handleCreateDraftOrder cfgW false "/proxy/create-draft-order".data
        (some bodyOneItem) envOk (constOracle draftNoInvoice) false =
      HandlerResponse.errorResp 401 "Invalid HMAC".data ∧
    handleCreateDraftOrder cfgNoSecret false "/proxy/create-draft-order?a=1".data
        (some bodyOneItem) envOk (constOracle draftNoInvoice) true =
      HandlerResponse.errorResp 401 "Invalid HMAC".data ∧
    handleCreateDraftOrder cfgW false "/proxy/create-draft-order".data
        (some bodyOneItem) envOk (constOracle draftNoInvoice) false =
      handleCreateDraftOrder cfgNoSecret false "/proxy/create-draft-order?a=1".data
        (some bodyOneItem) envOk (constOracle draftNoInvoice) true :=
  invalid_hmac_response_c6 cfgW cfgNoSecret "/proxy/create-draft-order".data
    "/proxy/create-draft-order?a=1".data (some bodyOneItem) (some bodyOneItem)
    envOk envOk (constOracle draftNoInvoice) (constOracle draftNoInvoice) false true
    (by decide) (by decide)

/-! Claim C7. -/

/-- Claim C7 counterexample: the search response holds a record with a truthy
id, yet the first record's id is falsy, so the resolver still makes a create
call and does not return the first match's id, against the claim that a
truthy-id match suppresses the create call. -/
theorem customer_resolution_c7_counterexample :
    (searchFalsyFirst.customers.any fun c => jsTruthyNum c.id) = true ∧
    jsTruthyStr custEmail.email = true ∧
    (findOrCreateCustomer envFalsyFirst custEmail).snd =
      [AdminCall.searchCall "a@b.c".data, AdminCall.createCall (createBodyOf custEmail)] ∧
    (findOrCreateCustomer envFalsyFirst custEmail).fst = Except.ok (some 9) :=
  ⟨rfl, rfl, rfl, rfl⟩

/-- Claim C7 amended: with an email present and a truthy id on the first
search match, no create call is made and that id is returned; with no email,
exactly one create call is made and the created id returned; with an email
but no usable first-match id, exactly one search then exactly one create call
is made; and every create request sets verified_email exactly when an email
was supplied. -/
theorem customer_resolution_c7_amended (env : AdminEnv) (cust : CustomerIn) :
    (∀ r n, jsTruthyStr cust.email = true → env.searchResp = Except.ok r →
      firstMatchId r = some n →
      findOrCreateCustomer env cust =
        (Except.ok (some n), [AdminCall.searchCall (searchQueryOf cust)])) ∧
    (∀ c, jsTruthyStr cust.email = false → env.createResp = Except.ok c →
      findOrCreateCustomer env cust =
        (Except.ok c.customer.id, [AdminCall.createCall (createBodyOf cust)])) ∧
    (∀ r c, jsTruthyStr cust.email = true → env.searchResp = Except.ok r →
      firstMatchId r = none → env.createResp = Except.ok c →
      findOrCreateCustomer env cust =
        (Except.ok c.customer.id,
         [AdminCall.searchCall (searchQueryOf cust),
          AdminCall.createCall (createBodyOf cust)])) ∧
    (createBodyOf cust).verified_email = jsTruthyStr cust.email := by
  refine ⟨?_, ?_, ?_, rfl⟩
  · intro r n he hs hf
    simp [findOrCreateCustomer, he, hs, hf]
  · intro c he hc
    simp [findOrCreateCustomer, he, hc]
  · intro r c he hs hf hc
    simp [findOrCreateCustomer, he, hs, hf, hc]

/-- Claim C7 witness: an email whose first search match has a truthy id
resolves to that id with one search call and no create call. -/
theorem customer_resolution_c7_witness :
    findOrCreateCustomer envOk custEmail =
      (Except.ok (some 77), [AdminCall.searchCall (searchQueryOf custEmail)]) :=
  (customer_resolution_c7_amended envOk custEmail).1 ⟨[⟨some 77⟩]⟩ 77 rfl rfl rfl

/-! Claim C8. -/

/-- Claim C8: the line-item mapping of the handler agrees with the claimed
mapping on every submitted item, and the two quoted instances hold: variant
id 123 with quantity 2 maps to the variant form with empty properties, and a
title and price item with no quantity maps to quantity one. -/
theorem line_item_mapping_c8 :
    (∀ li : LineItemIn, mapLineItem li = mapLineItemClaim li) ∧
    mapLineItem liVariant =
      { variant_id := some 123, title := none, price := none,
        quantity := 2, properties := [] } ∧
    mapLineItem liFreeText =
      { variant_id := none, title := some "Custom rug".data,
        price := some "99.00".data, quantity := 1, properties := [] } := by
  refine ⟨?_, rfl, rfl⟩
  intro li
  unfold mapLineItem mapLineItemClaim
  cases h : jsTruthyNum li.variant_id <;> simp [h]

/-! Claim C9. -/

/-- Claim C9 counterexample: a raw query whose second path_prefix fragment is
empty while the first carries a value: the builder keeps the first decoded
value and does not fall back, although the query does contain an empty
path_prefix fragment. -/
theorem empty_pathpfx_c9_counterexample :
    hasEmptyPathPfxFrag "path_prefix=%2Fx&path_prefix=".data = true ∧
    storefrontPathOf cfgW "/proxy/p".data "path_prefix=%2Fx&path_prefix=".data =
      "/x/p".data ∧
    fallbackPath cfgW ++ serverPathname "/proxy/p".data = "/apps/rfq/p".data ∧
    ¬ storefrontPathOf cfgW "/proxy/p".data "path_prefix=%2Fx&path_prefix=".data =
        fallbackPath cfgW ++ serverPathname "/proxy/p".data := by
  decide

/-- Claim C9 amended: when the first path_prefix fragment of the raw query
has an empty value (the fragment path_prefix= or a bare path_prefix key), the
builder uses the configured fallback mount, exactly as for a query with no
path_prefix key at all; and the storefront mount actually used is never the
empty string. -/
theorem empty_pathpfx_c9_amended (cfg : Config) (rawPath rawQuery : Str) :
    (findPathPfx (splitAmp rawQuery) = some [] →
      storefrontPathOf cfg rawPath rawQuery =
        fallbackPath cfg ++ serverPathname rawPath ∧
      storefrontPathOf cfg rawPath rawQuery = storefrontPathOf cfg rawPath []) ∧
    storefrontMountOf cfg rawQuery ≠ [] := by
  constructor
  · intro h
    have hq : ¬ rawQuery = [] := by
      intro hq
      rw [hq] at h
      have hnone : findPathPfx (splitAmp ([] : Str)) = none := by decide
      rw [hnone] at h
      cases h
    have hd : decodedPathPfx rawQuery = [] := by
      simp only [decodedPathPfx, if_neg hq]
      rw [pathPfxLoop_eq_find, h]
      rfl
    have h0 : storefrontPathOf cfg rawPath [] =
        fallbackPath cfg ++ serverPathname rawPath := by
      simp [storefrontPathOf, storefrontMountOf, decodedPathPfx]
    constructor
    · simp [storefrontPathOf, storefrontMountOf, hd]
    · rw [h0]
      simp [storefrontPathOf, storefrontMountOf, hd]
  · unfold storefrontMountOf
    split
    · simp [fallbackPath]
    · next hne => exact hne

/-- Claim C9 witness: a query whose only path_prefix fragment is empty draws
the fallback mount, the same as the empty query. -/
theorem empty_pathpfx_c9_witness :
    storefrontPathOf cfgW "/proxy/p".data "path_prefix=&a=b".data =
      fallbackPath cfgW ++ serverPathname "/proxy/p".data ∧
    storefrontPathOf cfgW "/proxy/p".data "path_prefix=&a=b".data =
      storefrontPathOf cfgW "/proxy/p".data [] :=
  (empty_pathpfx_c9_amended cfgW "/proxy/p".data "path_prefix=&a=b".data).1 (by decide)

/-! Claim C10. -/

/-- Claim C10 counterexample: an upstream response whose draft-order id is
present but zero: the id is there, yet the handler answers the 500 No draft
order id returned, against the claimed exactly-when-absent trigger. -/
theorem draft_id_c10_counterexample :
    (draftIdOf draftZeroId).isSome = true ∧
    handleCreateDraftOrder cfgW true "/proxy/create-draft-order".data
        (some bodyOneItem) envOk (constOracle draftZeroId) false =
      HandlerResponse.errorResp 500 "No draft order id returned".data :=
  ⟨rfl, rfl⟩

/-- Claim C10 amended: under a successful upstream creation, the 500 No draft
order id returned response occurs exactly when the upstream response lacks a
truthy (nonzero) draft-order id; with a truthy id the handler responds with
the success body, whose invoice_url field is always present and is null when
the upstream response has no (or an empty) invoice_url. -/
theorem draft_id_c10_amended (cfg : Config) (allowUnverified : Bool) (url : Str)
    (b : BodyIn) (li0 : LineItemIn) (lis : List LineItemIn) (env : AdminEnv)
    (oracle : List LineItemOut → Except Str DraftResp) (verbose : Bool)
    (cid : Option Nat) (out : DraftResp)
    (hauth : allowUnverified = true ∨ verifyProxySignature cfg url = true)
    (hli : b.line_items = some (li0 :: lis))
    (hcust : (findOrCreateCustomer env b.customer).fst = Except.ok cid)
    (hdraft : oracle (List.map mapLineItem (li0 :: lis)) = Except.ok out) :
    (handleCreateDraftOrder cfg allowUnverified url (some b) env oracle verbose =
        HandlerResponse.errorResp 500 "No draft order id returned".data ↔
      jsTruthyNum (draftIdOf out) = false) ∧
    (∀ n, draftIdOf out = some (n + 1) →
      handleCreateDraftOrder cfg allowUnverified url (some b) env oracle verbose =
        (if verbose then
          HandlerResponse.okVerbose (n + 1) (adminUrlOf cfg (n + 1)) (n + 1)
            (invoiceOrNull out)
         else
          HandlerResponse.okResp (n + 1) (adminUrlOf cfg (n + 1))
            (invoiceOrNull out))) := by
  have hcond : ¬ (allowUnverified = false ∧ verifyProxySignature cfg url = false) := by
    rintro ⟨h1, h2⟩
    rcases hauth with h | h
    · rw [h1] at h
      simp at h
    · rw [h2] at h
      simp at h
  have hred : handleCreateDraftOrder cfg allowUnverified url (some b) env oracle verbose =
      (match draftIdOf out with
       | some (n + 1) =>
         if verbose then
           HandlerResponse.okVerbose (n + 1) (adminUrlOf cfg (n + 1)) (n + 1)
             (invoiceOrNull out)
         else
           HandlerResponse.okResp (n + 1) (adminUrlOf cfg (n + 1)) (invoiceOrNull out)
       | _ => HandlerResponse.errorResp 500 "No draft order id returned".data) := by
    unfold handleCreateDraftOrder
    rw [if_neg hcond]
    simp only [lineItemsOf, customerOf, hli, hcust, hdraft]
  constructor
  · rw [hred]
    cases hid : draftIdOf out with
    | none => exact iff_of_true rfl rfl
    | some k =>
      cases k with
      | zero => exact iff_of_true rfl rfl
      | succ n =>
        constructor
        · intro h
          exfalso
          split at h
          · split at h <;> simp at h
          · rename_i hfall
            exact hfall n rfl
        · intro h
          simp [jsTruthyNum] at h
  · intro n hid
    rw [hred, hid]

/-- Claim C10 witness: a truthy id of three with no invoice url draws the
success body with reference three and a null invoice_url. -/
theorem draft_id_c10_witness :
    handleCreateDraftOrder cfgW true "/proxy/create-draft-order".data
        (some bodyOneItem) envOk (constOracle draftNoInvoice) false =
      HandlerResponse.okResp 3 (adminUrlOf cfgW 3) none :=
  (draft_id_c10_amended cfgW true "/proxy/create-draft-order".data bodyOneItem
    liVariant [] envOk (constOracle draftNoInvoice) false (some 88) draftNoInvoice
    (Or.inl rfl) rfl rfl rfl).2 2 rfl

end Rfq
